import Mathlib

/-!
Verification of the MultinomeSeq sequencer core, a shallow embedding of the
sequencing logic of MultinomeSeqV2.6.py: the data model (Track, SeqState),
the resize operation, the step operation with per-track subdivision and
scale-based note mapping, the internal clock delay with swing, the grid
composition manager (attach, detach, offsets), and the key handler with its
short-press velocity cycle.  Velocities and coordinates are Nat and Int;
times are Rat; falling off an index that Python would raise on is modelled
with Option.
-/

-- constants: ROWS = 8, TRACKS = 6
def ROWS : Nat := 8

def TRACKS : Nat := 6

-- SCALES dict, in source order (first entry is Chromatic = list(range(12)))
def SCALES : List (String × List Nat) :=
  [("Chromatic", List.range 12),
   ("Major", [0, 2, 4, 5, 7, 9, 11]),
   ("Minor", [0, 2, 3, 5, 7, 8, 10]),
   ("Dorian", [0, 2, 3, 5, 7, 9, 10]),
   ("Phrygian", [0, 1, 3, 5, 7, 8, 10]),
   ("Lydian", [0, 2, 4, 6, 7, 9, 11]),
   ("Mixolydian", [0, 2, 4, 5, 7, 9, 10]),
   ("Locrian", [0, 1, 3, 5, 6, 8, 10]),
   ("Minor Pentatonic", [0, 3, 5, 7, 10]),
   ("Major Pentatonic", [0, 2, 4, 7, 9])]

def scaleLookup (name : String) : Option (List Nat) :=
  (SCALES.find? (fun p => decide (p.1 = name))).map (fun p => p.2)

-- SCALES.get(tr.scale, SCALES["Chromatic"]): lookup with Chromatic fallback
def scaleGet (name : String) : List Nat :=
  match scaleLookup name with
  | some l => l
  | none => List.range 12

structure Track where
  name : String
  steps : List (List Nat)
  playcol : Nat
  midi_chan : Nat
  midi_out_port : String
  mute : Bool
  scale : String
  root_note : Nat
  subdivision : Nat
deriving DecidableEq

-- Track.__init__(name, midi_chan, cols)
def Track.init (name : String) (midi_chan cols : Nat) : Track :=
  { name := name
    steps := List.replicate ROWS (List.replicate cols 0)
    playcol := 0
    midi_chan := midi_chan
    midi_out_port := "MonomeSeq Out"
    mute := false
    scale := "Major"
    root_note := 60
    subdivision := 1 }

structure SeqState where
  cols : Nat
  tracks : List Track
  cur_idx : Nat
  running : Bool
  bpm : Nat
  swing : Rat
  midi_in_chan : Nat
  clock_mode : String
  tick_count : Nat
  beat_counter : Nat
deriving DecidableEq

-- SeqState.__init__
def SeqState.init : SeqState :=
  { cols := 0
    tracks := (List.range TRACKS).map (fun i => Track.init ("Track" ++ toString (i + 1)) i 0)
    cur_idx := 0
    running := true
    bpm := 120
    swing := 0
    midi_in_chan := 0
    clock_mode := "internal"
    tick_count := 0
    beat_counter := 0 }

-- steps[r][c], with 0 for an index Python could not reach in a well-formed state
def cellOf (m : List (List Nat)) (r c : Nat) : Nat :=
  (m.getD r []).getD c 0

-- old_cols = len(track.steps[0]) if track.steps and track.steps[0] else 0
-- (an empty first row has length 0, so row.length covers the truthiness test)
def oldColsOf (steps : List (List Nat)) : Nat :=
  match steps with
  | [] => 0
  | row :: _ => row.length

-- body of SeqState.resize_tracks for one track: clamp playcol, then, unless
-- the width is unchanged, build a fresh ROWS x new_cols matrix copying the
-- overlapping min(old_cols, new_cols) columns and zero-filling the rest
def resizeTrack (new_cols : Nat) (t : Track) : Track :=
  let playcol2 := if 0 < new_cols then t.playcol % new_cols else 0
  let old_cols := oldColsOf t.steps
  if new_cols = old_cols then { t with playcol := playcol2 }
  else
    { t with
      playcol := playcol2
      steps := (List.range ROWS).map (fun r =>
        (List.range new_cols).map (fun c =>
          if c < old_cols then cellOf t.steps r c else 0)) }

def SeqState.resize_tracks (s : SeqState) (new_cols : Nat) : SeqState :=
  { s with cols := new_cols, tracks := s.tracks.map (resizeTrack new_cols) }

-- short-press velocity cycle in Backend._on_key: 0 to 40 to 80 to 127 to 0
def cycleVel (v : Nat) : Nat :=
  if v = 0 then 40 else if v = 40 then 80 else if v = 80 then 127 else 0

-- one note-on message [0x90 | chan, note, vel] routed to a port
structure NoteOn where
  chan : Nat
  note : Nat
  vel : Nat
  port : String
deriving DecidableEq

-- the note loop of Backend._step for one track at its playcol
def trackNotes (t : Track) (playcol : Nat) : List NoteOn :=
  let intervals := scaleGet t.scale
  let num_degrees := intervals.length
  (List.range ROWS).filterMap (fun r =>
    let vel := cellOf t.steps r playcol
    if 0 < vel then
      some { chan := t.midi_chan
             note := t.root_note + ((r / num_degrees) * 12
               + intervals.getD (r % num_degrees) 0)
             vel := vel
             port := t.midi_out_port }
    else none)

-- the per-track body of Backend._step: skip muted tracks, fire only when
-- beat_counter mod subdivision == 0, and then derive playcol from the
-- shared beat counter
def stepTrack (beat_counter cols : Nat) (t : Track) : Track × List NoteOn :=
  if t.mute then (t, [])
  else if beat_counter % t.subdivision = 0 then
    let t2 := { t with playcol := (beat_counter / t.subdivision) % cols }
    (t2, trackNotes t2 t2.playcol)
  else (t, [])

-- Backend._step: return early when no columns, otherwise process every
-- track and increment beat_counter at the end of the tick
def SeqState.step (s : SeqState) : SeqState × List NoteOn :=
  if s.cols = 0 then (s, [])
  else
    let results := s.tracks.map (stepTrack s.beat_counter s.cols)
    ({ s with
        tracks := results.map (fun p => p.1)
        beat_counter := s.beat_counter + 1 },
     (results.map (fun p => p.2)).flatten)

-- the inter-tick delay of Backend._threaded_clock_loop:
-- step = 60/bpm/4; step*(1+swing) when beat_counter is odd, else step*(1-swing)
def clockDelay (s : SeqState) : Rat :=
  let step := 60 / (s.bpm : Rat) / 4
  let sw := s.swing
  if s.beat_counter % 2 ≠ 0 then step * (1 + sw) else step * (1 - sw)

-- the steps branch of SequencerGUI._load_pattern: a fresh zero matrix of the
-- current width, with min(len(loaded[r]), cols) leading cells copied per row;
-- Python indexes loaded[r] for every r < ROWS, so fewer rows raise (none)
def load_steps (loaded : List (List Nat)) (cols : Nat) : Option (List (List Nat)) :=
  if loaded.length < ROWS then none
  else some ((List.range ROWS).map (fun r =>
    (List.range cols).map (fun c =>
      if c < (loaded.getD r []).length then cellOf loaded r c else 0)))

-- a connected monome grid as the composition manager sees it
structure Grid where
  id : Nat
  width : Nat
  height : Nat
deriving DecidableEq

-- the backend state touched by the claims: grid_map and offsets in dict
-- insertion order, press_times keyed by (grid id, vx, vy), and the SeqState
structure Backend where
  grid_map : List Grid
  offsets : List (Nat × Nat)
  press_times : List ((Nat × Nat × Nat) × Rat)
  seq : SeqState
deriving DecidableEq

-- dict lookup on the offsets association list
def lookupOff : List (Nat × Nat) → Nat → Option Nat
  | [], _ => none
  | (k, v) :: rest, i => if k = i then some v else lookupOff rest i

-- key=lambda g: self.offsets.get(g.id, 0)
def offKey (offs : List (Nat × Nat)) (g : Grid) : Nat :=
  (lookupOff offs g.id).getD 0

-- sorted(grids_to_keep, key=...): a stable sort by prior offset
def sortGrids (offs : List (Nat × Nat)) (gs : List Grid) : List Grid :=
  gs.mergeSort (fun a c => offKey offs a ≤ offKey offs c)

def totalWidth (gs : List Grid) : Nat := (gs.map Grid.width).sum

-- the offsets a left-to-right walk assigns: each device gets the running
-- total of the widths before it
def offsetsFrom (acc : Nat) : List Grid → List (Nat × Nat)
  | [] => []
  | g :: gs => (g.id, acc) :: offsetsFrom (acc + g.width) gs

-- loop body of the recompute in _remove_grid_async:
-- new_offsets[g.id] = new_total_cols; new_grid_map[g.id] = g; total += width
def recomputeStep (acc : Nat × List (Nat × Nat) × List Grid) (g : Grid) :
    Nat × List (Nat × Nat) × List Grid :=
  (acc.1 + g.width, acc.2.1 ++ [(g.id, acc.1)], acc.2.2 ++ [g])

-- state update of Backend._setup_grid: ignore a duplicate id, otherwise
-- append the device at offset = current cols and resize to the new total
def Backend.setup_grid (b : Backend) (g : Grid) : Backend :=
  if (lookupOff b.offsets g.id).isSome then b
  else
    let current_cols := b.seq.cols
    let new_total_cols := current_cols + g.width
    { b with
      offsets := b.offsets ++ [(g.id, current_cols)]
      grid_map := b.grid_map ++ [g]
      seq := b.seq.resize_tracks new_total_cols }

-- state update of Backend._remove_grid_async: no-op when the id is not
-- tracked; otherwise keep the other grids, sort them by prior offset,
-- recompute offsets and total width from scratch, and resize.  (The special
-- case for an empty keep list in the source reaches the same state as the
-- generic recompute, which yields 0 columns and empty maps.)
def Backend.remove_grid (b : Backend) (gid : Nat) : Backend :=
  if (lookupOff b.offsets gid).isNone then b
  else
    let grids_to_keep := b.grid_map.filter (fun g => g.id ≠ gid)
    let sorted_grids := sortGrids b.offsets grids_to_keep
    let res := sorted_grids.foldl recomputeStep (0, [], [])
    { b with
      grid_map := res.2.2
      offsets := res.2.1
      seq := b.seq.resize_tracks res.1 }

-- Backend._on_key: bounds check first, then translate through the offset of
-- the device and the vertical flip; key-down records a timestamp, key-up
-- pops it (ignored when absent) and clears on a long press (at least 0.5s)
-- or cycles the velocity on a short one.  none models a Python exception
-- (missing offset or an index outside the matrix).
def Backend.on_key (b : Backend) (g : Grid) (x y : Int) (s : Bool) (now : Rat) :
    Option Backend :=
  if ¬ (0 ≤ x ∧ x < (g.width : Int) ∧ 0 ≤ y ∧ y < (g.height : Int)) then some b
  else
    match lookupOff b.offsets g.id with
    | none => none
    | some off =>
      if s then
        some { b with press_times :=
          (((g.id, x.toNat + off, ROWS - 1 - y.toNat) : Nat × Nat × Nat), now)
            :: b.press_times.filter (fun p => p.1 ≠ (g.id, x.toNat + off, ROWS - 1 - y.toNat)) }
      else
        match b.press_times.find?
            (fun p => decide (p.1 = (g.id, x.toNat + off, ROWS - 1 - y.toNat))) with
        | none => some b
        | some pr =>
          match b.seq.tracks.get? b.seq.cur_idx with
          | none => none
          | some cur =>
            match cur.steps.get? (ROWS - 1 - y.toNat) with
            | none => none
            | some row =>
              match row.get? (x.toNat + off) with
              | none => none
              | some vel =>
                some { b with
                  press_times := b.press_times.filter
                    (fun p => p.1 ≠ (g.id, x.toNat + off, ROWS - 1 - y.toNat))
                  seq := { b.seq with tracks := b.seq.tracks.set b.seq.cur_idx ({ cur with steps := cur.steps.set (ROWS - 1 - y.toNat) (row.set (x.toNat + off) (if (1 : Rat) / 2 ≤ now - pr.2 then 0 else cycleVel vel)) }) } }

-- the velocity quantization set of the spec
def velOK (v : Nat) : Prop := v = 0 ∨ v = 40 ∨ v = 80 ∨ v = 127

instance (v : Nat) : Decidable (velOK v) := by unfold velOK; infer_instance

def stepsOK (m : List (List Nat)) : Prop := ∀ row ∈ m, ∀ v ∈ row, velOK v

instance (m : List (List Nat)) : Decidable (stepsOK m) := by
  unfold stepsOK; infer_instance

def tracksOK (s : SeqState) : Prop := ∀ t ∈ s.tracks, stepsOK t.steps

instance (s : SeqState) : Decidable (tracksOK s) := by
  unfold tracksOK; infer_instance

-- a step matrix of exactly ROWS rows and cols columns
def trackWF (cols : Nat) (t : Track) : Prop :=
  t.steps.length = ROWS ∧ ∀ row ∈ t.steps, row.length = cols

instance (cols : Nat) (t : Track) : Decidable (trackWF cols t) := by
  unfold trackWF; infer_instance

-- the layout invariant of the grid composition manager: offsets are the
-- running width totals in prior-offset order, cols is the total width, and
-- every track matrix is ROWS x cols
def GridInv (b : Backend) : Prop :=
  b.offsets = offsetsFrom 0 b.grid_map
  ∧ b.seq.cols = totalWidth b.grid_map
  ∧ (b.grid_map.map Grid.id).Nodup
  ∧ ∀ t ∈ b.seq.tracks, trackWF b.seq.cols t

instance (b : Backend) : Decidable (GridInv b) := by
  unfold GridInv; infer_instance

-- concrete scenario material: two 8-wide devices, an empty backend, the
-- backend after both attaches, and the same with one cell marked in the
-- column range of each device on the first track
def gA : Grid := { id := 1, width := 8, height := 8 }

def gB : Grid := { id := 2, width := 8, height := 8 }

def b0 : Backend :=
  { grid_map := [], offsets := [], press_times := [], seq := SeqState.init }

def b1 : Backend := b0.setup_grid gA

def b2 : Backend := b1.setup_grid gB

def defaultTrack : Track := Track.init "X" 0 0

-- row 0 marked with velocity 40 at column 0 (device A) and column 8 (device B)
def markRow16 : List Nat :=
  [40, 0, 0, 0, 0, 0, 0, 0, 40, 0, 0, 0, 0, 0, 0, 0]

def markedTrack : Track :=
  { (b2.seq.tracks.getD 0 defaultTrack) with
    steps := markRow16 :: List.replicate 7 (List.replicate 16 0) }

def b2m : Backend :=
  { b2 with seq := { b2.seq with tracks := b2.seq.tracks.set 0 markedTrack } }

-- concrete tracks for the note-mapping scenario: Major scale, one column,
-- active cells at rows 0 and 7
def tMajor60 : Track :=
  { Track.init "T" 0 1 with
    scale := "Major"
    root_note := 60
    steps := [[100], [0], [0], [0], [0], [0], [0], [100]] }

def tMajor120 : Track := { tMajor60 with root_note := 120 }

-- a track whose scale name is not in SCALES
def tUnknown : Track := { Track.init "T" 0 1 with scale := "Blues" }

-- concrete witness material
def sW : SeqState := SeqState.init.resize_tracks 8

def tW : Track := Track.init "Track1" 0 8

def sV : SeqState := SeqState.init.resize_tracks 2

def tV : Track := Track.init "Track1" 0 2

def loadedW : List (List Nat) := List.replicate 8 [40, 40]

def mW : List (List Nat) := List.replicate 8 [40, 40, 0]

-- ───────── theorems ─────────

theorem velOK_cycleVel (v : Nat) : velOK (cycleVel v) := by
  unfold cycleVel
  split
  · decide
  · split
    · decide
    · split
      · decide
      · decide

/-- C4: for every velocity value in the quantization set {0, 40, 80, 127},
four applications of the short-press cycle (0 to 40 to 80 to 127 to 0)
return the original value. -/
theorem short_press_cycle_period_four (v : Nat) (h : velOK v) :
    cycleVel (cycleVel (cycleVel (cycleVel v))) = v := by
  rcases h with h | h | h | h <;> subst h <;> decide

/-- C4 witness: the cycle applied four times to 40 returns 40. -/
theorem short_press_cycle_period_four_witness :
    velOK 40 ∧ cycleVel (cycleVel (cycleVel (cycleVel 40))) = 40 :=
  ⟨by decide, short_press_cycle_period_four 40 (by decide)⟩

/-- C7: the inter-tick delay is step*(1-swing) on even beat indices and
step*(1+swing) on odd ones, where step = 60/bpm/4; hence with swing = 0
every delay equals 60/bpm/4 exactly. -/
theorem clock_swing_delay (s : SeqState) :
    (s.beat_counter % 2 = 0 → clockDelay s = 60 / (s.bpm : Rat) / 4 * (1 - s.swing))
    ∧ (s.beat_counter % 2 = 1 → clockDelay s = 60 / (s.bpm : Rat) / 4 * (1 + s.swing))
    ∧ (s.swing = 0 → clockDelay s = 60 / (s.bpm : Rat) / 4) := by
  refine ⟨fun h => ?_, fun h => ?_, fun h => ?_⟩ <;> simp only [clockDelay]
  · rw [if_neg (by simp [h])]
  · rw [if_pos (by simp [h])]
  · rw [h]
    split <;> ring

/-- C7 witness: concrete even tick, odd tick, and zero-swing instances. -/
theorem clock_swing_delay_witness :
    (SeqState.init.beat_counter % 2 = 0
      ∧ clockDelay SeqState.init
          = 60 / (SeqState.init.bpm : Rat) / 4 * (1 - SeqState.init.swing))
    ∧ (({ SeqState.init with beat_counter := 1 } : SeqState).beat_counter % 2 = 1
      ∧ clockDelay { SeqState.init with beat_counter := 1 }
          = 60 / (({ SeqState.init with beat_counter := 1 } : SeqState).bpm : Rat) / 4
              * (1 + ({ SeqState.init with beat_counter := 1 } : SeqState).swing))
    ∧ (SeqState.init.swing = 0
      ∧ clockDelay SeqState.init = 60 / (SeqState.init.bpm : Rat) / 4) :=
  ⟨⟨by decide, (clock_swing_delay SeqState.init).1 (by decide)⟩,
   ⟨by decide, (clock_swing_delay { SeqState.init with beat_counter := 1 }).2.1 (by decide)⟩,
   ⟨by rfl, (clock_swing_delay SeqState.init).2.2 (by rfl)⟩⟩

/-- C9: a key event whose physical coordinates fall outside
[0, width) x [0, height) returns with the backend unchanged: no press
timestamp is recorded, no step cell changes, and no exception (none)
can occur. -/
theorem key_out_of_bounds_noop (b : Backend) (g : Grid) (x y : Int) (s : Bool) (now : Rat)
    (h : ¬ (0 ≤ x ∧ x < (g.width : Int) ∧ 0 ≤ y ∧ y < (g.height : Int))) :
    b.on_key g x y s now = some b := by
  unfold Backend.on_key
  rw [if_pos h]

/-- C9 witness: x = -1 on an 8 x 8 grid leaves the backend untouched. -/
theorem key_out_of_bounds_noop_witness :
    ¬ (0 ≤ (-1 : Int) ∧ (-1 : Int) < (gA.width : Int)
        ∧ 0 ≤ (0 : Int) ∧ (0 : Int) < (gA.height : Int))
    ∧ b0.on_key gA (-1) 0 true 0 = some b0 :=
  ⟨by decide, key_out_of_bounds_noop b0 gA (-1) 0 true 0 (by decide)⟩

/-- C5 (amended): a step with at least one column increments beat_counter by
exactly 1 at the end of the tick, with no hypothesis on mutes; a step with
0 columns returns immediately, leaving the whole state (including
beat_counter) unchanged and emitting nothing. -/
theorem step_increments_beat_counter (s : SeqState) :
    (0 < s.cols → (s.step).1.beat_counter = s.beat_counter + 1)
    ∧ (s.cols = 0 → (s.step).1 = s ∧ (s.step).2 = []) := by
  unfold SeqState.step
  constructor
  · intro h
    rw [if_neg (Nat.pos_iff_ne_zero.mp h)]
  · intro h
    rw [if_pos h]
    exact ⟨rfl, rfl⟩

/-- C5 counterexample: in the initial state (0 columns, beat_counter 0) the
step operation leaves beat_counter at 0, not 1, refuting the claim that
beat_counter is incremented even on 0-column ticks. -/
theorem step_zero_cols_cex :
    SeqState.init.cols = 0
    ∧ (SeqState.init.step).1.beat_counter = 0
    ∧ ¬ (SeqState.init.step).1.beat_counter = SeqState.init.beat_counter + 1 := by
  refine ⟨rfl, rfl, ?_⟩
  decide

/-- C5 witness: with 8 columns the counter goes 0 to 1 (all tracks unmuted or
not does not matter); with 0 columns the state is returned unchanged. -/
theorem step_increments_beat_counter_witness :
    0 < sW.cols ∧ (sW.step).1.beat_counter = sW.beat_counter + 1
    ∧ SeqState.init.cols = 0 ∧ (SeqState.init.step).1 = SeqState.init :=
  ⟨by decide, (step_increments_beat_counter sW).1 (by decide), by decide,
   ((step_increments_beat_counter SeqState.init).2 (by decide)).1⟩

/-- C10: when a track's scale name is not a key of SCALES, the step's note
mapping falls back to the Chromatic interval list; the notes emitted are
exactly those of the same track with scale "Chromatic". -/
theorem unknown_scale_chromatic_fallback (t : Track) (pc : Nat)
    (h : scaleLookup t.scale = none) :
    scaleGet t.scale = List.range 12
    ∧ scaleGet t.scale = scaleGet "Chromatic"
    ∧ trackNotes t pc = trackNotes { t with scale := "Chromatic" } pc := by
  have h1 : scaleGet t.scale = List.range 12 := by unfold scaleGet; rw [h]
  have h2 : scaleGet "Chromatic" = List.range 12 := by decide
  refine ⟨h1, by rw [h1, h2], ?_⟩
  have h3 : scaleGet ({ t with scale := "Chromatic" } : Track).scale = scaleGet t.scale := by
    show scaleGet "Chromatic" = scaleGet t.scale
    rw [h2, h1]
  unfold trackNotes
  rw [h3]

/-- C10 witness: the unknown scale name "Blues" falls back to Chromatic. -/
theorem unknown_scale_chromatic_fallback_witness :
    scaleLookup tUnknown.scale = none
    ∧ scaleGet tUnknown.scale = List.range 12
    ∧ scaleGet tUnknown.scale = scaleGet "Chromatic"
    ∧ trackNotes tUnknown 0 = trackNotes { tUnknown with scale := "Chromatic" } 0 :=
  ⟨by decide, (unknown_scale_chromatic_fallback tUnknown 0 (by decide)).1,
   (unknown_scale_chromatic_fallback tUnknown 0 (by decide)).2.1,
   (unknown_scale_chromatic_fallback tUnknown 0 (by decide)).2.2⟩

/-- C2: in the step operation, an unmuted track emits notes only on ticks
with beat_counter mod subdivision == 0, and on such a tick its playhead is
set to (beat_counter div subdivision) mod columns, derived from the shared
beat counter; on other ticks the track is untouched and silent. -/
theorem step_subdivision_phase (s : SeqState) (i : Nat) (t : Track)
    (ht : s.tracks[i]? = some t) (hm : t.mute = false) (hc : 0 < s.cols) :
    ((s.step).1.tracks[i]? = some (stepTrack s.beat_counter s.cols t).1)
    ∧ ((stepTrack s.beat_counter s.cols t).2 ≠ [] → s.beat_counter % t.subdivision = 0)
    ∧ (s.beat_counter % t.subdivision = 0 →
        (stepTrack s.beat_counter s.cols t).1.playcol
          = (s.beat_counter / t.subdivision) % s.cols)
    ∧ (¬ s.beat_counter % t.subdivision = 0 →
        (stepTrack s.beat_counter s.cols t).1 = t
          ∧ (stepTrack s.beat_counter s.cols t).2 = []) := by
  refine ⟨?_, ?_, ?_, ?_⟩
  · unfold SeqState.step
    rw [if_neg (Nat.pos_iff_ne_zero.mp hc)]
    simp [List.getElem?_map, ht]
  · intro hne
    by_cases hbc : s.beat_counter % t.subdivision = 0
    · exact hbc
    · exfalso
      apply hne
      unfold stepTrack
      simp [hm, hbc]
  · intro hbc
    unfold stepTrack
    simp [hm, hbc]
  · intro hbc
    unfold stepTrack
    simp [hm, hbc]

/-- C2 witness: in an 8-column state at beat 0, track 0 (subdivision 1) is
stepped and its playhead is (0 div 1) mod 8. -/
theorem step_subdivision_phase_witness :
    sW.tracks[0]? = some tW ∧ tW.mute = false ∧ 0 < sW.cols
    ∧ ((sW.step).1.tracks[0]? = some (stepTrack sW.beat_counter sW.cols tW).1)
    ∧ ((stepTrack sW.beat_counter sW.cols tW).1.playcol
        = (sW.beat_counter / tW.subdivision) % sW.cols) :=
  ⟨by decide, by decide, by decide,
   (step_subdivision_phase sW 0 tW (by decide) (by decide) (by decide)).1,
   (step_subdivision_phase sW 0 tW (by decide) (by decide) (by decide)).2.2.1 (by decide)⟩

theorem mem_of_getElem?_eq (l : List α) (i : Nat) (a : α) (h : l[i]? = some a) : a ∈ l := by
  have h2 : l.get? i = some a := by rw [List.get?_eq_getElem?]; exact h
  exact List.get?_mem h2

theorem getD_map_range (k : Nat) (f : Nat → α) (i : Nat) (d : α) (hi : i < k) :
    ((List.range k).map f).getD i d = f i := by
  rw [List.getD_eq_getElem?_getD, List.getElem?_map, List.getElem?_range hi]
  rfl

theorem getD_map_range_ge (k : Nat) (f : Nat → α) (i : Nat) (d : α) (hi : k ≤ i) :
    ((List.range k).map f).getD i d = d := by
  have h : (List.range k)[i]? = none := by
    apply List.getElem?_eq_none
    simpa using hi
  rw [List.getD_eq_getElem?_getD, List.getElem?_map, h]
  rfl

theorem oldColsOf_eq (t : Track) (old : Nat) (h8 : t.steps.length = ROWS)
    (hwf : ∀ row ∈ t.steps, row.length = old) : oldColsOf t.steps = old := by
  cases hs : t.steps with
  | nil => rw [hs] at h8; simp [ROWS] at h8
  | cons r rest =>
    have hmem : r ∈ t.steps := by rw [hs]; exact List.mem_cons_self r rest
    exact hwf r hmem

theorem resizeTrack_steps_build (n : Nat) (t : Track) (h : ¬ n = oldColsOf t.steps) :
    (resizeTrack n t).steps = (List.range ROWS).map (fun r =>
      (List.range n).map (fun c =>
        if c < oldColsOf t.steps then cellOf t.steps r c else 0)) := by
  unfold resizeTrack
  rw [if_neg h]

theorem resizeTrack_steps_same (n : Nat) (t : Track) (h : n = oldColsOf t.steps) :
    (resizeTrack n t).steps = t.steps := by
  unfold resizeTrack
  rw [if_pos h]

theorem resizeTrack_playcol (n : Nat) (t : Track) :
    (resizeTrack n t).playcol = if 0 < n then t.playcol % n else 0 := by
  by_cases h : n = oldColsOf t.steps <;> simp [resizeTrack, h]

theorem resizeTrack_steps_length (n old : Nat) (t : Track) (h8 : t.steps.length = ROWS)
    (hwf : ∀ row ∈ t.steps, row.length = old) :
    (resizeTrack n t).steps.length = ROWS := by
  by_cases hn : n = oldColsOf t.steps
  · rw [resizeTrack_steps_same n t hn]; exact h8
  · rw [resizeTrack_steps_build n t hn]; simp

theorem resizeTrack_rows_length (n old : Nat) (t : Track) (h8 : t.steps.length = ROWS)
    (hwf : ∀ row ∈ t.steps, row.length = old) :
    ∀ row ∈ (resizeTrack n t).steps, row.length = n := by
  have hold : oldColsOf t.steps = old := oldColsOf_eq t old h8 hwf
  by_cases hn : n = oldColsOf t.steps
  · rw [resizeTrack_steps_same n t hn]
    intro row hrow
    rw [hwf row hrow, ← hold, hn]
  · rw [resizeTrack_steps_build n t hn]
    intro row hrow
    obtain ⟨r, _, rfl⟩ := List.mem_map.mp hrow
    simp

theorem resizeTrack_cell_copy (n old : Nat) (t : Track) (h8 : t.steps.length = ROWS)
    (hwf : ∀ row ∈ t.steps, row.length = old) :
    ∀ r c, r < ROWS → c < old → c < n →
      cellOf (resizeTrack n t).steps r c = cellOf t.steps r c := by
  have hold : oldColsOf t.steps = old := oldColsOf_eq t old h8 hwf
  intro r c hr hco hcn
  by_cases hn : n = oldColsOf t.steps
  · rw [resizeTrack_steps_same n t hn]
  · rw [resizeTrack_steps_build n t hn]
    unfold cellOf
    rw [getD_map_range ROWS _ r [] hr, getD_map_range n _ c 0 hcn,
      if_pos (by rw [hold]; exact hco)]

theorem resizeTrack_cell_zero (n old : Nat) (t : Track) (h8 : t.steps.length = ROWS)
    (hwf : ∀ row ∈ t.steps, row.length = old) :
    ∀ r c, old ≤ c → cellOf (resizeTrack n t).steps r c = 0 := by
  have hold : oldColsOf t.steps = old := oldColsOf_eq t old h8 hwf
  intro r c hc
  by_cases hn : n = oldColsOf t.steps
  · rw [resizeTrack_steps_same n t hn]
    unfold cellOf
    rw [List.getD_eq_getElem?_getD t.steps r []]
    cases hr : t.steps[r]? with
    | none => simp
    | some row =>
      have hmem : row ∈ t.steps := mem_of_getElem?_eq _ _ _ hr
      have hlen : row.length = old := hwf row hmem
      have hnone : row[c]? = none := by
        apply List.getElem?_eq_none
        omega
      simp [List.getD_eq_getElem?_getD, hnone]
  · rw [resizeTrack_steps_build n t hn]
    unfold cellOf
    by_cases hr : r < ROWS
    · rw [getD_map_range ROWS _ r [] hr]
      by_cases hcn : c < n
      · rw [getD_map_range n _ c 0 hcn, if_neg (by omega)]
      · rw [getD_map_range_ge n _ c 0 (by omega)]
    · rw [getD_map_range_ge ROWS _ r [] (by omega)]
      simp

theorem resizeTrack_playcol_lt (n : Nat) (t : Track) (h : 0 < n) :
    (resizeTrack n t).playcol < n := by
  rw [resizeTrack_playcol, if_pos h]
  exact Nat.mod_lt _ h

theorem resizeTrack_playcol_zero (t : Track) : (resizeTrack 0 t).playcol = 0 := by
  rw [resizeTrack_playcol, if_neg (by decide)]

/-- C3: for every old and new column count, resizing a well-formed
ROWS x old track matrix yields a ROWS x new matrix inside the resized
state; cells in the overlap keep their value, cells at or beyond the old
width are 0, and the playhead lands in [0, new) (0 when new = 0). -/
theorem resize_tracks_spec (s : SeqState) (n old : Nat) (t : Track)
    (ht : t ∈ s.tracks) (h8 : t.steps.length = ROWS)
    (hwf : ∀ row ∈ t.steps, row.length = old) :
    resizeTrack n t ∈ (s.resize_tracks n).tracks
    ∧ (s.resize_tracks n).cols = n
    ∧ (resizeTrack n t).steps.length = ROWS
    ∧ (∀ row ∈ (resizeTrack n t).steps, row.length = n)
    ∧ (∀ r c, r < ROWS → c < old → c < n →
        cellOf (resizeTrack n t).steps r c = cellOf t.steps r c)
    ∧ (∀ r c, old ≤ c → cellOf (resizeTrack n t).steps r c = 0)
    ∧ (0 < n → (resizeTrack n t).playcol < n)
    ∧ (n = 0 → (resizeTrack n t).playcol = 0) :=
  ⟨List.mem_map_of_mem (resizeTrack n) ht,
   rfl,
   resizeTrack_steps_length n old t h8 hwf,
   resizeTrack_rows_length n old t h8 hwf,
   resizeTrack_cell_copy n old t h8 hwf,
   resizeTrack_cell_zero n old t h8 hwf,
   resizeTrack_playcol_lt n t,
   fun h0 => by subst h0; exact resizeTrack_playcol_zero t⟩

/-- C3 witness: a 2-column track resized to 5 columns inside a 2-column
state, checked at concrete cells. -/
theorem resize_tracks_spec_witness :
    tV ∈ sV.tracks ∧ trackWF 2 tV
    ∧ resizeTrack 5 tV ∈ (sV.resize_tracks 5).tracks
    ∧ (sV.resize_tracks 5).cols = 5
    ∧ (resizeTrack 5 tV).steps.length = ROWS
    ∧ cellOf (resizeTrack 5 tV).steps 0 1 = cellOf tV.steps 0 1
    ∧ cellOf (resizeTrack 5 tV).steps 0 3 = 0
    ∧ (resizeTrack 5 tV).playcol < 5 :=
  ⟨by decide, by decide,
   (resize_tracks_spec sV 5 2 tV (by decide) (by decide) (by decide)).1,
   (resize_tracks_spec sV 5 2 tV (by decide) (by decide) (by decide)).2.1,
   (resize_tracks_spec sV 5 2 tV (by decide) (by decide) (by decide)).2.2.1,
   (resize_tracks_spec sV 5 2 tV (by decide) (by decide) (by decide)).2.2.2.2.1
     0 1 (by decide) (by decide) (by decide),
   (resize_tracks_spec sV 5 2 tV (by decide) (by decide) (by decide)).2.2.2.2.2.1
     0 3 (by decide),
   (resize_tracks_spec sV 5 2 tV (by decide) (by decide) (by decide)).2.2.2.2.2.2.1
     (by decide)⟩

/-- C8: every note the step emits for an active cell at row r follows
root_note + 12*(r div degrees) + intervals[r mod degrees] with no clamping;
concretely, Major at root 60 maps rows 0 and 7 to notes 60 and 72, and at
root 120 row 7 maps to 132, above the MIDI range. -/
theorem note_mapping_formula :
    (∀ (t : Track) (pc r : Nat), r < ROWS → 0 < cellOf t.steps r pc →
      ({ chan := t.midi_chan
         note := t.root_note + 12 * (r / (scaleGet t.scale).length)
           + (scaleGet t.scale).getD (r % (scaleGet t.scale).length) 0
         vel := cellOf t.steps r pc
         port := t.midi_out_port } : NoteOn) ∈ trackNotes t pc)
    ∧ (trackNotes tMajor60 0).map NoteOn.note = [60, 72]
    ∧ (trackNotes tMajor120 0).map NoteOn.note = [120, 132] := by
  refine ⟨?_, by decide, by decide⟩
  intro t pc r hr hv
  unfold trackNotes
  apply List.mem_filterMap.mpr
  refine ⟨r, List.mem_range.mpr hr, ?_⟩
  simp only [hv, if_pos, Option.some.injEq, NoteOn.mk.injEq, eq_self_iff_true,
    true_and, and_true]
  ring

/-- C8 witness: row 7 of the concrete Major-scale track yields the note
computed by the formula (72 = 60 + 12*1 + 0). -/
theorem note_mapping_formula_witness :
    7 < ROWS ∧ 0 < cellOf tMajor60.steps 7 0
    ∧ ({ chan := tMajor60.midi_chan
         note := tMajor60.root_note + 12 * (7 / (scaleGet tMajor60.scale).length)
           + (scaleGet tMajor60.scale).getD (7 % (scaleGet tMajor60.scale).length) 0
         vel := cellOf tMajor60.steps 7 0
         port := tMajor60.midi_out_port } : NoteOn) ∈ trackNotes tMajor60 0 :=
  ⟨by decide, by decide, note_mapping_formula.1 tMajor60 0 7 (by decide) (by decide)⟩

theorem velOK_cellOf (m : List (List Nat)) (hm : stepsOK m) (r c : Nat) :
    velOK (cellOf m r c) := by
  unfold cellOf
  rw [List.getD_eq_getElem?_getD m r []]
  cases hr : m[r]? with
  | none => exact Or.inl rfl
  | some row =>
    have hmem : row ∈ m := mem_of_getElem?_eq _ _ _ hr
    rw [Option.getD_some, List.getD_eq_getElem?_getD row c 0]
    cases hc : row[c]? with
    | none => exact Or.inl rfl
    | some v =>
      have hvm : v ∈ row := mem_of_getElem?_eq _ _ _ hc
      rw [Option.getD_some]
      exact hm row hmem v hvm

theorem tracksOK_set_cell (s : SeqState) (idx vy vx newV : Nat) (cur : Track)
    (row : List Nat) (hOK : tracksOK s) (hcur : s.tracks.get? idx = some cur)
    (hrow : cur.steps.get? vy = some row) (hv : velOK newV) :
    tracksOK { s with tracks := s.tracks.set idx ({ cur with steps := cur.steps.set vy (row.set vx newV) }) } := by
  intro t ht
  rcases List.mem_or_eq_of_mem_set ht with hmem | rfl
  · exact hOK t hmem
  · intro row2 hrow2
    rcases List.mem_or_eq_of_mem_set hrow2 with hmem2 | rfl
    · exact hOK cur (List.get?_mem hcur) row2 hmem2
    · intro v hv2
      rcases List.mem_or_eq_of_mem_set hv2 with hmem3 | rfl
      · exact hOK cur (List.get?_mem hcur) row (List.get?_mem hrow) v hmem3
      · exact hv

/-- C6 counterexample: loading a pattern whose velocity data contains 100
writes 100 into the step matrix, a value outside {0, 40, 80, 127}; the load
path copies file velocities verbatim, so it does not preserve the set. -/
theorem pattern_load_velocity_cex :
    (load_steps (List.replicate 8 [100]) 1).map (fun m => cellOf m 0 0) = some 100
    ∧ ¬ velOK 100 := by
  decide

/-- C6 (amended): key input and resize zero-fill write only velocities in
{0, 40, 80, 127}, so they preserve the set; pattern load zero-fills and
copies velocities verbatim from the loaded data, so its result lies in the
set exactly when the loaded velocities themselves do. -/
theorem velocity_set_preservation :
    (∀ (b : Backend) (g : Grid) (x y : Int) (sd : Bool) (now : Rat) (bres : Backend),
      tracksOK b.seq → b.on_key g x y sd now = some bres → tracksOK bres.seq)
    ∧ (∀ (s : SeqState) (n : Nat), tracksOK s → tracksOK (s.resize_tracks n))
    ∧ (∀ (loaded : List (List Nat)) (cols : Nat) (m : List (List Nat)),
      stepsOK loaded → load_steps loaded cols = some m → stepsOK m) := by
  refine ⟨?_, ?_, ?_⟩
  · intro b g x y sd now bres hOK h
    unfold Backend.on_key at h
    split at h
    · simp only [Option.some.injEq] at h
      subst h
      exact hOK
    · split at h
      · exact absurd h (by simp)
      · rename_i off hlk
        split at h
        · simp only [Option.some.injEq] at h
          subst h
          exact hOK
        · split at h
          · simp only [Option.some.injEq] at h
            subst h
            exact hOK
          · rename_i pr hfind
            split at h
            · exact absurd h (by simp)
            · rename_i cur hcur
              split at h
              · exact absurd h (by simp)
              · rename_i row hrow
                split at h
                · exact absurd h (by simp)
                · rename_i vel hvel
                  simp only [Option.some.injEq] at h
                  subst h
                  apply tracksOK_set_cell b.seq b.seq.cur_idx (ROWS - 1 - y.toNat)
                    (x.toNat + off) _ cur row hOK hcur hrow
                  split
                  · exact Or.inl rfl
                  · exact velOK_cycleVel vel
  · intro s n hOK
    intro t ht
    obtain ⟨t0, ht0, rfl⟩ := List.mem_map.mp ht
    intro row hrow
    by_cases hn : n = oldColsOf t0.steps
    · rw [resizeTrack_steps_same n t0 hn] at hrow
      exact hOK t0 ht0 row hrow
    · rw [resizeTrack_steps_build n t0 hn] at hrow
      obtain ⟨r, _, rfl⟩ := List.mem_map.mp hrow
      intro v hv
      obtain ⟨c, _, rfl⟩ := List.mem_map.mp hv
      split
      · exact velOK_cellOf t0.steps (hOK t0 ht0) r c
      · exact Or.inl rfl
  · intro loaded cols m hOK h
    unfold load_steps at h
    split at h
    · exact absurd h (by simp)
    · simp only [Option.some.injEq] at h
      subst h
      intro row hrow
      obtain ⟨r, _, rfl⟩ := List.mem_map.mp hrow
      intro v hv
      obtain ⟨c, _, rfl⟩ := List.mem_map.mp hv
      split
      · exact velOK_cellOf loaded hOK r c
      · exact Or.inl rfl

/-- C6 witness: a spurious key-up, a concrete resize, and a concrete load of
in-set data all land in the velocity set. -/
theorem velocity_set_preservation_witness :
    (tracksOK b1.seq ∧ b1.on_key gA 0 0 false 0 = some b1 ∧ tracksOK b1.seq)
    ∧ (tracksOK SeqState.init ∧ tracksOK (SeqState.init.resize_tracks 3))
    ∧ (stepsOK loadedW ∧ load_steps loadedW 3 = some mW ∧ stepsOK mW) :=
  ⟨⟨by decide, by rfl,
    velocity_set_preservation.1 b1 gA 0 0 false 0 b1 (by decide) (by rfl)⟩,
   ⟨by decide, velocity_set_preservation.2.1 SeqState.init 3 (by decide)⟩,
   ⟨by decide, by decide,
    velocity_set_preservation.2.2 loadedW 3 mW (by decide) (by decide)⟩⟩

theorem totalWidth_cons (g : Grid) (l : List Grid) :
    totalWidth (g :: l) = g.width + totalWidth l := by
  simp [totalWidth]

theorem totalWidth_append_one (l : List Grid) (g : Grid) :
    totalWidth (l ++ [g]) = totalWidth l + g.width := by
  simp [totalWidth]

theorem offsetsFrom_append_one (acc : Nat) (l : List Grid) (g : Grid) :
    offsetsFrom acc (l ++ [g]) = offsetsFrom acc l ++ [(g.id, acc + totalWidth l)] := by
  induction l generalizing acc with
  | nil => simp [offsetsFrom, totalWidth]
  | cons h2 tl ih =>
    show (h2.id, acc) :: offsetsFrom (acc + h2.width) (tl ++ [g])
        = ((h2.id, acc) :: offsetsFrom (acc + h2.width) tl) ++ [(g.id, acc + totalWidth (h2 :: tl))]
    rw [ih, totalWidth_cons, ← Nat.add_assoc]
    rfl

theorem lookupOff_offsetsFrom_isSome (acc : Nat) (l : List Grid) (i : Nat) :
    (lookupOff (offsetsFrom acc l) i).isSome ↔ i ∈ l.map Grid.id := by
  induction l generalizing acc with
  | nil => simp [offsetsFrom, lookupOff]
  | cons g tl ih =>
    simp only [offsetsFrom, lookupOff, List.map_cons, List.mem_cons]
    by_cases hgi : g.id = i
    · simp [hgi]
    · rw [if_neg hgi]
      rw [ih (acc + g.width)]
      constructor
      · intro hm
        exact Or.inr hm
      · intro hm
        rcases hm with hm | hm
        · exact absurd hm.symm hgi
        · exact hm

theorem lookupOff_offsetsFrom_ge (acc : Nat) (l : List Grid) (i v : Nat)
    (h : lookupOff (offsetsFrom acc l) i = some v) : acc ≤ v := by
  induction l generalizing acc with
  | nil => simp [offsetsFrom, lookupOff] at h
  | cons g tl ih =>
    simp only [offsetsFrom, lookupOff] at h
    by_cases hgi : g.id = i
    · rw [if_pos hgi] at h
      simp only [Option.some.injEq] at h
      omega
    · rw [if_neg hgi] at h
      have := ih (acc + g.width) h
      omega

theorem offKey_head (acc : Nat) (g : Grid) (tl : List Grid) :
    offKey (offsetsFrom acc (g :: tl)) g = acc := by
  simp [offKey, offsetsFrom, lookupOff]

theorem offKey_tail (acc : Nat) (g : Grid) (tl : List Grid) (c : Grid) (hne : c.id ≠ g.id) :
    offKey (offsetsFrom acc (g :: tl)) c = offKey (offsetsFrom (acc + g.width) tl) c := by
  unfold offKey
  show (lookupOff ((g.id, acc) :: offsetsFrom (acc + g.width) tl) c.id).getD 0 = _
  simp only [lookupOff]
  rw [if_neg (fun h => hne h.symm)]

theorem offKey_pairwise (acc : Nat) (l : List Grid) (hnd : (l.map Grid.id).Nodup) :
    List.Pairwise (fun a c => offKey (offsetsFrom acc l) a ≤ offKey (offsetsFrom acc l) c) l := by
  induction l generalizing acc with
  | nil => exact List.Pairwise.nil
  | cons g tl ih =>
    simp only [List.map_cons, List.nodup_cons] at hnd
    rw [List.pairwise_cons]
    constructor
    · intro c hc
      have hne : c.id ≠ g.id := by
        intro he
        exact hnd.1 (he ▸ List.mem_map_of_mem Grid.id hc)
      rw [offKey_head, offKey_tail acc g tl c hne]
      have hsome : (lookupOff (offsetsFrom (acc + g.width) tl) c.id).isSome :=
        (lookupOff_offsetsFrom_isSome _ _ _).mpr (List.mem_map_of_mem Grid.id hc)
      obtain ⟨v, hv⟩ := Option.isSome_iff_exists.mp hsome
      have hge := lookupOff_offsetsFrom_ge (acc + g.width) tl c.id v hv
      unfold offKey
      rw [hv]
      simp only [Option.getD_some]
      omega
    · have hp := ih (acc + g.width) hnd.2
      refine hp.imp_of_mem ?_
      intro a c2 ha hc2 hr
      have hnea : a.id ≠ g.id := by
        intro he
        exact hnd.1 (he ▸ List.mem_map_of_mem Grid.id ha)
      have hnec : c2.id ≠ g.id := by
        intro he
        exact hnd.1 (he ▸ List.mem_map_of_mem Grid.id hc2)
      rw [offKey_tail acc g tl a hnea, offKey_tail acc g tl c2 hnec]
      exact hr

theorem sortGrids_of_pairwise (offs : List (Nat × Nat)) (gs : List Grid)
    (h : List.Pairwise (fun a c => offKey offs a ≤ offKey offs c) gs) :
    sortGrids offs gs = gs := by
  unfold sortGrids
  apply List.mergeSort_of_sorted
  exact h.imp (fun hab => decide_eq_true hab)

theorem foldl_recomputeStep (gs : List Grid) (n : Nat) (offs : List (Nat × Nat))
    (gm : List Grid) :
    gs.foldl recomputeStep (n, offs, gm)
      = (n + totalWidth gs, offs ++ offsetsFrom n gs, gm ++ gs) := by
  induction gs generalizing n offs gm with
  | nil => simp [totalWidth, offsetsFrom]
  | cons g tl ih =>
    rw [List.foldl_cons]
    show List.foldl recomputeStep (n + g.width, offs ++ [(g.id, n)], gm ++ [g]) tl = _
    rw [ih]
    simp [totalWidth_cons, offsetsFrom, Nat.add_assoc]

theorem trackWF_resizeTrack (c n : Nat) (t : Track) (h : trackWF c t) :
    trackWF n (resizeTrack n t) :=
  ⟨resizeTrack_steps_length n c t h.1 h.2, resizeTrack_rows_length n c t h.1 h.2⟩

theorem tracksWF_resize (s : SeqState) (n : Nat)
    (h : ∀ t ∈ s.tracks, trackWF s.cols t) :
    ∀ t ∈ (s.resize_tracks n).tracks, trackWF (s.resize_tracks n).cols t := by
  intro t ht
  obtain ⟨t0, ht0, rfl⟩ := List.mem_map.mp ht
  exact trackWF_resizeTrack s.cols n t0 (h t0 ht0)

theorem GridInv_setup_grid (b : Backend) (g : Grid) (h : GridInv b) :
    GridInv (b.setup_grid g) := by
  unfold Backend.setup_grid
  by_cases hdup : (lookupOff b.offsets g.id).isSome
  · rw [if_pos (by simp [hdup])]
    exact h
  · rw [if_neg (by simpa using hdup)]
    obtain ⟨h1, h2, h3, h4⟩ := h
    have hnotmem : g.id ∉ b.grid_map.map Grid.id := by
      rw [h1] at hdup
      intro hm
      exact hdup ((lookupOff_offsetsFrom_isSome 0 b.grid_map g.id).mpr hm)
    refine ⟨?_, ?_, ?_, ?_⟩
    · show b.offsets ++ [(g.id, b.seq.cols)] = offsetsFrom 0 (b.grid_map ++ [g])
      rw [offsetsFrom_append_one, ← h1, Nat.zero_add, ← h2]
    · show b.seq.cols + g.width = totalWidth (b.grid_map ++ [g])
      rw [totalWidth_append_one, h2]
    · show ((b.grid_map ++ [g]).map Grid.id).Nodup
      simp [List.nodup_append, h3, hnotmem]
    · exact tracksWF_resize b.seq (b.seq.cols + g.width) h4

theorem GridInv_remove_grid (b : Backend) (gid : Nat) (h : GridInv b) :
    GridInv (b.remove_grid gid) := by
  unfold Backend.remove_grid
  by_cases habs : (lookupOff b.offsets gid).isNone
  · rw [if_pos (by simp [habs])]
    exact h
  · rw [if_neg (by simpa using habs)]
    obtain ⟨h1, h2, h3, h4⟩ := h
    have hpw : List.Pairwise (fun a c => offKey b.offsets a ≤ offKey b.offsets c)
        (b.grid_map.filter (fun g2 => g2.id ≠ gid)) := by
      have hall := offKey_pairwise 0 b.grid_map h3
      rw [← h1] at hall
      exact List.Pairwise.sublist (List.filter_sublist b.grid_map) hall
    dsimp only []
    rw [sortGrids_of_pairwise b.offsets _ hpw, foldl_recomputeStep]
    simp only [Nat.zero_add, List.nil_append]
    refine ⟨rfl, rfl, ?_, ?_⟩
    · show ((b.grid_map.filter (fun g2 => g2.id ≠ gid)).map Grid.id).Nodup
      exact List.Nodup.sublist (List.Sublist.map Grid.id (List.filter_sublist b.grid_map)) h3
    · exact tracksWF_resize b.seq _ h4

theorem remove_grid_eq (b : Backend) (gid : Nat)
    (hp : List.Pairwise (fun a c => offKey b.offsets a ≤ offKey b.offsets c)
        (b.grid_map.filter (fun g2 => g2.id ≠ gid)))
    (hs : (lookupOff b.offsets gid).isNone = false) :
    b.remove_grid gid =
      { b with
        grid_map := b.grid_map.filter (fun g2 => g2.id ≠ gid)
        offsets := offsetsFrom 0 (b.grid_map.filter (fun g2 => g2.id ≠ gid))
        seq := b.seq.resize_tracks (totalWidth (b.grid_map.filter (fun g2 => g2.id ≠ gid))) } := by
  unfold Backend.remove_grid
  rw [if_neg (by simp [hs])]
  dsimp only []
  rw [sortGrids_of_pairwise b.offsets _ hp, foldl_recomputeStep]
  simp

/-- C1 counterexample: devices A (id 1, offset 0) and B (id 2, offset 8)
are attached and cell (row 0, column 0) of track 0, inside the column range
of A, holds 40, as does cell (row 0, column 8) inside the range of B.
Detaching A keeps the value at column 0 (the data of the departed device is
NOT discarded) and drops the value at former column 8 (the data in the
trailing columns, B's former range, is what the resize discards). -/
theorem detach_discards_trailing_columns_cex :
    lookupOff b2.offsets 1 = some 0
    ∧ cellOf markedTrack.steps 0 0 = 40
    ∧ cellOf markedTrack.steps 0 8 = 40
    ∧ cellOf ((b2m.remove_grid 1).seq.tracks.getD 0 defaultTrack).steps 0 0 = 40
    ∧ ¬ cellOf ((b2m.remove_grid 1).seq.tracks.getD 0 defaultTrack).steps 0 0 = 0
    ∧ cellOf ((b2m.remove_grid 1).seq.tracks.getD 0 defaultTrack).steps 0 8 = 0 := by
  rw [remove_grid_eq b2m 1 (by decide) (by decide)]
  decide

/-- C1 (amended): attaching and detaching devices preserves the layout
invariant (columns equal the sum of the tracked widths, each offset is the
sum of the widths before it in prior-offset order, every track matrix is
ROWS x columns); two 8-wide attaches give columns 16 with offsets 0 and 8,
and detaching the first recomputes the survivor offset to 0 with columns 8,
discarding the step data in the trailing columns beyond the new width (the
survivor's former columns) while the departed device's former columns keep
their data under the new layout. -/
theorem grid_attach_detach_layout :
    (∀ (b : Backend) (g : Grid), GridInv b → GridInv (b.setup_grid g))
    ∧ (∀ (b : Backend) (gid : Nat), GridInv b → GridInv (b.remove_grid gid))
    ∧ b2.seq.cols = 16
    ∧ lookupOff b2.offsets 1 = some 0
    ∧ lookupOff b2.offsets 2 = some 8
    ∧ (b2m.remove_grid 1).seq.cols = 8
    ∧ lookupOff (b2m.remove_grid 1).offsets 2 = some 0
    ∧ lookupOff (b2m.remove_grid 1).offsets 1 = none
    ∧ cellOf ((b2m.remove_grid 1).seq.tracks.getD 0 defaultTrack).steps 0 0 = 40
    ∧ cellOf ((b2m.remove_grid 1).seq.tracks.getD 0 defaultTrack).steps 0 8 = 0
    ∧ (∀ row ∈ ((b2m.remove_grid 1).seq.tracks.getD 0 defaultTrack).steps,
        row.length = 8) := by
  have hval := remove_grid_eq b2m 1 (by decide) (by decide)
  refine ⟨GridInv_setup_grid, GridInv_remove_grid, by decide, by decide, by decide,
    ?_, ?_, ?_, ?_, ?_, ?_⟩ <;> rw [hval] <;> decide

/-- C1 witness: the invariant holds of the empty backend and is carried
through a concrete attach and a concrete detach. -/
theorem grid_attach_detach_layout_witness :
    GridInv b0 ∧ GridInv (b0.setup_grid gA)
    ∧ GridInv b2 ∧ GridInv (b2.remove_grid 1) :=
  ⟨by decide, grid_attach_detach_layout.1 b0 gA (by decide),
   by decide, grid_attach_detach_layout.2.1 b2 1 (by decide)⟩
